import Mathlib

/-!
Shallow embedding of `scrapyd_client/deploy.py` (the scrapyd-deploy CLI).

Python dictionaries of strings are modelled as association lists with
Python's insertion/overwrite semantics (`dictInsert`, `dictUpdate`), the
INI configuration as a list of named sections, and the external world
(filesystem, subprocesses, the HTTP server) as an `Env` record supplying
the observations the program makes.  Side effects (stdout, stderr,
network calls, directory creation/removal, file copies) are collected in
an explicit trace of `Effect`s, and Python exceptions (`SystemExit` from
`sys.exit`, `NameError`, `KeyError`, `subprocess.CalledProcessError`)
become an `Except PyExc` result.
-/

namespace ScrapydDeploy

/-- Association list of string keys, modelling a Python `dict` of strings
(for configuration sections and resolved targets). -/
abbrev Assoc := List (String × String)

/-- Lookup of the first binding of a key, modelling `d.get(k)` /
`d[k]` presence on a Python dict (whose keys are unique). -/
def lookupA {α : Type} : List (String × α) → String → Option α
  | [], _ => none
  | (k', v) :: rest, k => if k' == k then some v else lookupA rest k

/-- Membership test for a key, modelling Python's `k in d`. -/
def hasKey (l : Assoc) (k : String) : Bool := (lookupA l k).isSome

/-- Insertion into a Python dict: `d[k] = v` replaces the value in place
when the key exists (keeping its position) and appends otherwise. -/
def dictInsert {α : Type} : List (String × α) → String → α → List (String × α)
  | [], k, v => [(k, v)]
  | (k', v') :: rest, k, v =>
      if k' == k then (k, v) :: rest else (k', v') :: dictInsert rest k v

/-- Python's `base.copy(); .update(upd)`: every pair of `upd` is inserted
into `base` in order. -/
def dictUpdate (base upd : Assoc) : Assoc :=
  upd.foldl (fun d p => dictInsert d p.1 p.2) base

/-- Drop of the first `n` code points, modelling the Python slice `s[n:]`. -/
def strDrop (s : String) (n : Nat) : String := ⟨s.data.drop n⟩

/-- Test that `p` is an initial segment of `s`, modelling Python's
`s.startswith(p)`. -/
def strStarts (s p : String) : Bool := s.data.take p.data.length == p.data

/-- Python's `s.strip("\n")`: remove leading and trailing newline
characters. -/
def stripNL (s : String) : String :=
  ⟨(s.data.dropWhile (· == '\n')).reverse.dropWhile (· == '\n') |>.reverse⟩

/-- Truthiness of an optional string: Python's `None` and `""` are falsy,
every other string is truthy. -/
def pyTruthy : Option String → Bool
  | none => false
  | some s => !s.isEmpty

/-- An INI configuration as produced by `get_config()`: a list of named
sections, each holding its key/value items.  `ConfigParser` guarantees
that section names are unique; theorems that need this state it as a
`Nodup` hypothesis. -/
structure Config where
  sections : List (String × Assoc)

/-- Models `cfg.has_section(s)`. -/
def Config.has_section (cfg : Config) (s : String) : Bool :=
  (lookupA cfg.sections s).isSome

/-- Models `cfg.items(s)` for an existing section (`[]` otherwise; the
source only calls it guarded by `has_section` or on iterated sections). -/
def Config.items (cfg : Config) (s : String) : Assoc :=
  (lookupA cfg.sections s).getD []

/-- Command-line options as produced by `parse_args()`. -/
structure Opts where
  target : String
  project : Option String
  version : Option String
  list_targets : Bool
  deploy_all_targets : Bool
  debug : Bool
  list_projects : Option String
  egg : Option String
  build_egg : Option String
  include_dependencies : Bool

/-- A decoded JSON error body: `decoded = some fields` when
`json.loads(raw)` yields an object of string fields, `none` when it
raises `ValueError`. -/
structure ErrBody where
  raw : String
  decoded : Option Assoc

/-- The server's reaction to the `addversion.json` POST: `urlopen` either
returns a 2xx response, raises `HTTPError` with a body, or raises
`URLError`. -/
inductive HttpResponse where
  | ok (code : Nat) (body : String)
  | httpError (code : Nat) (body : ErrBody)
  | urlError (msg : String)

/-- Observations the program makes of its environment: project layout,
subprocess outputs, the temporary directory name `mkdtemp` picks, the
built egg path, and the HTTP server's response. -/
structure Env where
  insideProject : Bool
  gitDescribeOut : String
  gitDescribeCode : Nat
  gitRevListCountOut : String
  gitBranchOut : String
  hgTipOut : String
  hgBranchOut : String
  timeNow : Nat
  builtTmpdir : String
  builtEggPath : String
  buildOk : Bool
  requirementsExists : Bool
  projectsList : List String
  serverResponse : HttpResponse

/-- Python exceptions the embedded code can raise. -/
inductive PyExc where
  | sysExit (code : Nat)
  | nameError (name : String)
  | keyError
  | calledProcessError
deriving DecidableEq

/-- Observable side effects, in program order: `_log` writes to stderr,
`print` to stdout; network, filesystem and subprocess actions are tagged
with their arguments. -/
inductive Effect where
  | logLine (s : String)
  | printLine (s : String)
  | httpPost (u : String)
  | httpGet (u : String)
  | mkdtemp (dir : String)
  | rmtree (dir : String)
  | copyfile (src dst : String)
  | runSetup
deriving DecidableEq

/-- Network effects (the only two places the program touches the wire). -/
def Effect.isNetwork : Effect → Bool
  | .httpPost _ => true
  | .httpGet _ => true
  | _ => false

/-- Directory-removal effects (`shutil.rmtree`). -/
def Effect.isRmtree : Effect → Bool
  | .rmtree _ => true
  | _ => false

/-- How the interpreter ends: a `sys.exit(c)` (or falling off `main`)
exits with code `c`; an unhandled exception prints a traceback and the
interpreter exits with OS status 1. -/
inductive Outcome where
  | exited (code : Nat)
  | crashed (e : PyExc)
deriving DecidableEq

/-- The OS-visible exit status of an `Outcome`. -/
def osExitCode : Outcome → Nat
  | .exited c => c
  | .crashed _ => 1

/-- Propagation of an exception out of `main`: `SystemExit c` exits with
`c`, everything else crashes the interpreter. -/
def excOutcome : PyExc → Outcome
  | .sysExit c => .exited c
  | e => .crashed e

/-- Models `urllib.parse.urljoin(base, action)` abstractly; no claim
depends on the shape of the joined URL, only on which URL the request
targets. -/
def urljoin (base action : String) : String := base ++ action

/-- Models `json.dumps(data, indent=3)` abstractly for the branch that
pretty-prints an error object without `status`/`message`; no claim
depends on its exact rendering. -/
def jsonDumps (fields : Assoc) : String :=
  "\x7b" ++ String.intercalate ", " (fields.map fun p => p.1 ++ ": " ++ p.2) ++ "\x7d"

/-- Models the `baset` of `_get_targets`: the items of the `deploy`
section when it exists, `{}` otherwise. -/
def baseTarget (cfg : Config) : Assoc :=
  if cfg.has_section "deploy" then cfg.items "deploy" else []

/-- Loop body of `_get_targets`: a section named `deploy:<name>` stores
target `<name>` (the slice `section[7:]`) as the base items updated by
the section's items (`ConfigParser` section names are unique, so
`cfg.items(section)` is the section's own item list); any other section
is skipped. -/
def addDeploySection (baset : Assoc) (targets : List (String × Assoc))
    (sec : String × Assoc) : List (String × Assoc) :=
  if strStarts sec.1 "deploy:" then
    dictInsert targets (strDrop sec.1 7) (dictUpdate baset sec.2)
  else targets

/-- Embeds `_get_targets`: the base `deploy` section is the `default`
target provided it has a `url`; every `deploy:<name>` section yields
target `<name>`.  The accumulation mirrors Python dict insertion into
`targets`. -/
def getTargets (cfg : Config) : List (String × Assoc) :=
  let targets0 :=
    if hasKey (baseTarget cfg) "url" then dictInsert [] "default" (baseTarget cfg)
    else []
  cfg.sections.foldl (addDeploySection (baseTarget cfg)) targets0

/-- Embeds `_get_target`: a missing name hits `_fail("Unknown target: …")`,
which logs the message and calls `sys.exit(1)`. -/
def getTarget (cfg : Config) (name : String) :
    List Effect × Except PyExc Assoc :=
  match lookupA (getTargets cfg) name with
  | some t => ([], .ok t)
  | none => ([.logLine ("Unknown target: " ++ name)], .error (.sysExit 1))

/-- Embeds `_url`: joins the target's `url` with the action, or hits
`_fail("Error: Missing url for project")`. -/
def targetUrl (target : Assoc) (action : String) :
    List Effect × Except PyExc String :=
  match lookupA target "url" with
  | some u => ([], .ok (urljoin u action))
  | none => ([.logLine "Error: Missing url for project"], .error (.sysExit 1))

/-- Embeds `_get_version`: the explicit `--version` option (when truthy)
or the target's `version` key selects the policy; `"HG"` and `"GIT"`
shell out (outputs supplied by `Env`), any other truthy string is used
verbatim, and otherwise the current Unix timestamp is rendered in
decimal via `str(int(time.time()))`. -/
def getVersion (target : Assoc) (opts : Opts) (env : Env) : String :=
  let version : Option String :=
    if pyTruthy opts.version then opts.version else lookupA target "version"
  if version == some "HG" then
    ("r" ++ env.hgTipOut) ++ "-" ++ stripNL env.hgBranchOut
  else if version == some "GIT" then
    (if env.gitDescribeCode != 0 then "r" ++ stripNL env.gitRevListCountOut
     else stripNL env.gitDescribeOut) ++ "-" ++ stripNL env.gitBranchOut
  else if pyTruthy version then version.getD ""
  else toString env.timeNow

/-- Embeds `_http_post` applied to the request for `u`: `urlopen` is the
network call; a 2xx response logs the code and prints the body,
returning `True` (`some true`); an `HTTPError` body is JSON-decoded and
reported; a `URLError` is logged.  The error paths fall through and
return `None` (`none`). -/
def httpPost (u : String) (resp : HttpResponse) :
    List Effect × Option Bool :=
  match resp with
  | .ok code body =>
      ([.httpPost u, .logLine ("Server response (" ++ toString code ++ "):"),
        .printLine body], some true)
  | .httpError code body =>
      let e0 := [Effect.httpPost u, .logLine ("Deploy failed (" ++ toString code ++ "):")]
      match body.decoded with
      | none => (e0 ++ [.printLine body.raw], none)
      | some fields =>
          if hasKey fields "status" && hasKey fields "message" then
            (e0 ++ [.printLine ("Status: " ++ (lookupA fields "status").getD ""),
                    .printLine ("Message:\n" ++ (lookupA fields "message").getD "")], none)
          else
            (e0 ++ [.printLine (jsonDumps fields)], none)
  | .urlError msg => ([.httpPost u, .logLine ("Deploy failed: " ++ msg)], none)

/-- Embeds `_upload_egg`: resolves the `addversion.json` URL (which may
`sys.exit`), logs the deploy line and posts the multipart request.  The
egg bytes and auth header do not influence any observable the claims
talk about and are not modelled. -/
def uploadEgg (target : Assoc) (project : String) (env : Env) :
    List Effect × Except PyExc (Option Bool) :=
  match targetUrl target "addversion.json" with
  | (e, .error ex) => (e, .error ex)
  | (e, .ok u) =>
      let e := e ++ [Effect.logLine ("Deploying to project \"" ++ project ++ "\" in " ++ u)]
      let r := httpPost u env.serverResponse
      (e ++ r.1, .ok r.2)

/-- Embeds `_build_egg`: after `chdir` and the `setup.py` bootstrap (not
observable to any claim), `mkdtemp` creates the build directory; with
`--include-dependencies` a missing `requirements.txt` hits
`_fail("Error: Missing requirements.txt")`; the `setup.py` subprocess
runs with `check=True` (raising `CalledProcessError` on failure, which
also covers an empty glob) and the first globbed egg path is returned. -/
def buildEgg (opts : Opts) (env : Env) :
    List Effect × Except PyExc (String × String) :=
  let e0 := [Effect.mkdtemp env.builtTmpdir]
  let e1 :=
    if opts.include_dependencies then
      e0 ++ [Effect.logLine "Including dependencies from requirements.txt"]
    else e0
  if opts.include_dependencies && !env.requirementsExists then
    (e1 ++ [.logLine "Error: Missing requirements.txt"], .error (.sysExit 1))
  else
    let e2 := e1 ++ [Effect.runSetup]
    if env.buildOk then (e2, .ok (env.builtEggPath, env.builtTmpdir))
    else (e2, .error .calledProcessError)

/-- Embeds `_build_egg_and_deploy_target`.  The project name comes from
`--project` or the target; a falsy project hits
`_fail("Error: Missing project")`.  The egg is taken from `--egg` or
built.  The upload call at line 145 reads the name `egg`, which is bound
nowhere in the function (the egg path is bound as `eggpath`), so
evaluating the call's arguments raises `NameError: name 'egg' is not
defined` before any request is made. -/
def buildEggAndDeployTarget (target : Assoc) (version : String)
    (opts : Opts) (env : Env) :
    List Effect × Except PyExc (Nat × Option String) :=
  let project : Option String :=
    if pyTruthy opts.project then opts.project else lookupA target "project"
  if !pyTruthy project then
    ([.logLine "Error: Missing project"], .error (.sysExit 1))
  else
    match opts.egg with
    | some givenEgg =>
        ([.logLine ("Using egg: " ++ givenEgg)], .error (.nameError "egg"))
    | none =>
        let e := [Effect.logLine ("Packing version " ++ version)]
        match buildEgg opts env with
        | (eb, .error ex) => (e ++ eb, .error ex)
        | (eb, .ok _) => (e ++ eb, .error (.nameError "egg"))

/-- Embeds `_remove_tmpdir`: nothing happens for a falsy `tmpdir`; in
debug mode the directory is kept and its path logged, otherwise it is
removed with `shutil.rmtree`. -/
def removeTmpdir (tmpdir : Option String) (opts : Opts) : List Effect :=
  match tmpdir with
  | none => []
  | some d =>
      if d.isEmpty then []
      else if opts.debug then [.logLine ("Output dir not removed: " ++ d)]
      else [.rmtree d]

/-- Models the `"%-20s %s" % (name, url)` line of `--list-targets`:
the name left-justified to 20 columns, a space, the URL. -/
def targetLine (name u : String) : String :=
  (name ++ String.mk (List.replicate (20 - name.length) ' ')) ++ " " ++ u

/-- Embeds the `--list-targets` loop of `main`: `target["url"]` raises
`KeyError` when a target lacks a `url`. -/
def listTargetsLoop : List (String × Assoc) → List Effect × Except PyExc Unit
  | [] => ([], .ok ())
  | (n, t) :: rest =>
      match lookupA t "url" with
      | none => ([], .error .keyError)
      | some u =>
          let r := listTargetsLoop rest
          ([Effect.printLine (targetLine n u)] ++ r.1, r.2)

/-- Embeds the `--deploy-all-targets` loop of `main`: the first
iteration resolves the shared version; each iteration builds and
deploys, discarding the per-target exit code (`_, tmpdir = …`), and
removes its temporary directory.  Exceptions propagate. -/
def deployAllLoop (opts : Opts) (env : Env) :
    List (String × Assoc) → Option String → List Effect × Except PyExc Unit
  | [], _ => ([], .ok ())
  | (_, target) :: rest, version? =>
      let v := match version? with
               | none => getVersion target opts env
               | some v => v
      match buildEggAndDeployTarget target v opts env with
      | (e, .error ex) => (e, .error ex)
      | (e, .ok (_, tmpdir)) =>
          let e2 := removeTmpdir tmpdir opts
          let r := deployAllLoop opts env rest (some v)
          (e ++ e2 ++ r.1, r.2)

/-- Embeds `main`: the not-inside-a-project guard, the four modes
(list-targets, list-projects, build-only, deploy single/all) and the
final `sys.exit(exitcode)`.  The `--list-projects` branch performs a GET
and prints the project names joined by line separators (network
failures in that branch are outside every claim and are not modelled). -/
def mainRun (cfg : Config) (opts : Opts) (env : Env) :
    List Effect × Outcome :=
  if !env.insideProject then
    ([.logLine "Error: no Scrapy project found in this location"], .exited 1)
  else if opts.list_targets then
    let r := listTargetsLoop (getTargets cfg)
    match r.2 with
    | .ok _ => (r.1, .exited 0)
    | .error ex => (r.1, excOutcome ex)
  else if pyTruthy opts.list_projects then
    match getTarget cfg ((opts.list_projects).getD "") with
    | (e, .error ex) => (e, excOutcome ex)
    | (e, .ok target) =>
        match targetUrl target "listprojects.json" with
        | (e2, .error ex) => (e ++ e2, excOutcome ex)
        | (e2, .ok u) =>
            (e ++ e2 ++ [.httpGet u, .printLine (String.intercalate "\n" env.projectsList)],
             .exited 0)
  else if pyTruthy opts.build_egg then
    match buildEgg opts env with
    | (e, .error ex) => (e, excOutcome ex)
    | (e, .ok (eggpath, _)) =>
        (e ++ [.logLine ("Writing egg to " ++ (opts.build_egg).getD ""),
               .copyfile eggpath ((opts.build_egg).getD "")], .exited 0)
  else if opts.deploy_all_targets then
    let r := deployAllLoop opts env (getTargets cfg) none
    match r.2 with
    | .ok _ => (r.1, .exited 0)
    | .error ex => (r.1, excOutcome ex)
  else
    match getTarget cfg opts.target with
    | (e, .error ex) => (e, excOutcome ex)
    | (e, .ok target) =>
        let version := getVersion target opts env
        match buildEggAndDeployTarget target version opts env with
        | (e2, .error ex) => (e ++ e2, excOutcome ex)
        | (e2, .ok (exitcode, tmpdir)) =>
            (e ++ e2 ++ removeTmpdir tmpdir opts, .exited exitcode)

/-! Concrete fixtures used by closed theorems and witnesses. -/

/-- A configuration with a single `deploy` section carrying a `url` and a
`project`. -/
def cfgEx : Config :=
  ⟨[("deploy", [("url", "http://localhost:6800/"), ("project", "myproject")])]⟩

/-- A configuration with a base `deploy` section and a `deploy:staging`
override. -/
def cfgStaging : Config :=
  ⟨[("deploy", [("url", "http://localhost:6800/"), ("project", "myproject"),
                ("username", "bob")]),
    ("deploy:staging", [("url", "http://staging:6800/"), ("version", "GIT")])]⟩

/-- A configuration whose base `deploy` section has no `url` and whose
`deploy:nourl` section has no `url` either. -/
def cfgNoUrl : Config :=
  ⟨[("deploy", [("project", "myproject")]),
    ("deploy:nourl", [("project", "other")])]⟩

/-- Options for a plain single-target deploy using a prebuilt egg. -/
def optsC1 : Opts :=
  ⟨"default", none, some "1.0", false, false, false, none, some "dist/my.egg",
   none, false⟩

/-- Options for a plain single-target deploy that builds the egg. -/
def optsC2 : Opts :=
  ⟨"default", none, some "1.0", false, false, false, none, none, none, false⟩

/-- Options for a deploy against a server that answers with an error. -/
def optsC3 : Opts :=
  ⟨"staging", some "myproject", some "1.0", false, false, false, none, none,
   none, false⟩

/-- Options for build-only mode without the debug flag. -/
def optsBuildOnly : Opts :=
  ⟨"default", none, none, false, false, false, none, none, some "out.egg",
   false⟩

/-- Options requesting the undefined target `missing`. -/
def optsC5w : Opts :=
  ⟨"missing", none, none, false, false, false, none, none, none, false⟩

/-- An environment whose `git describe` succeeds. -/
def envGit : Env :=
  ⟨true, "v1.2.3-4-gabc\n", 0, "57\n", "main\n", "", "", 1700000000,
   "/tmp/scrapydeploy-abc", "/tmp/scrapydeploy-abc/project-1.0-py3.egg",
   true, true, [], HttpResponse.ok 200 "ok"⟩

/-- An environment in which the server accepts the upload with a 200
JSON `ok` body. -/
def envOk : Env :=
  ⟨true, "", 0, "", "", "", "", 1700000000, "/tmp/scrapydeploy-abc",
   "/tmp/scrapydeploy-abc/project-1.0-py3.egg", true, true, [],
   HttpResponse.ok 200 "\x7b\"status\": \"ok\"\x7d"⟩

/-- An environment in which the server rejects the upload with a 400
JSON error body. -/
def envErr : Env :=
  ⟨true, "", 0, "", "", "", "", 1700000000, "/tmp/scrapydeploy-abc",
   "/tmp/scrapydeploy-abc/project-1.0-py3.egg", true, true, [],
   HttpResponse.httpError 400
     ⟨"\x7b\"status\": \"error\", \"message\": \"X\"\x7d",
      some [("status", "error"), ("message", "X")]⟩⟩

/-! Lemmas about the dictionary model. -/

theorem lookupA_dictInsert_self {α : Type} (d : List (String × α)) (k : String) (v : α) :
    lookupA (dictInsert d k v) k = some v := by
  induction d with
  | nil => simp [dictInsert, lookupA]
  | cons p rest ih =>
      by_cases h : p.1 = k
      · simp [dictInsert, lookupA, h]
      · simp only [dictInsert, lookupA]
        rw [if_neg (by simpa using h)]
        simp only [lookupA]
        rw [if_neg (by simpa using h)]
        exact ih

theorem lookupA_dictInsert_ne {α : Type} (d : List (String × α)) (k k' : String) (v : α)
    (h : k' ≠ k) : lookupA (dictInsert d k v) k' = lookupA d k' := by
  have hkk : ¬ k = k' := fun hh => h hh.symm
  induction d with
  | nil =>
      simp only [dictInsert, lookupA]
      rw [if_neg (by simpa using hkk)]
  | cons p rest ih =>
      obtain ⟨p1, p2⟩ := p
      by_cases hp : p1 = k
      · subst hp
        simp only [dictInsert]
        rw [if_pos (by simp)]
        simp only [lookupA]
        rw [if_neg (by simpa using hkk), if_neg (by simpa using hkk)]
      · simp only [dictInsert]
        rw [if_neg (by simpa using hp)]
        simp only [lookupA]
        by_cases hk' : p1 = k'
        · rw [if_pos (by simpa using hk'), if_pos (by simpa using hk')]
        · rw [if_neg (by simpa using hk'), if_neg (by simpa using hk')]
          exact ih

theorem lookupA_eq_none_of_not_mem {α : Type} (l : List (String × α)) (k : String)
    (h : k ∉ l.map Prod.fst) : lookupA l k = none := by
  induction l with
  | nil => rfl
  | cons p rest ih =>
      simp only [List.map_cons, List.mem_cons, not_or] at h
      have hne : ¬ p.1 = k := fun hh => h.1 hh.symm
      simp only [lookupA]
      rw [if_neg (by simpa using hne)]
      exact ih h.2

theorem mem_of_lookupA_eq_some {α : Type} (l : List (String × α)) (k : String) (v : α)
    (h : lookupA l k = some v) : (k, v) ∈ l := by
  induction l with
  | nil => simp [lookupA] at h
  | cons p rest ih =>
      obtain ⟨p1, p2⟩ := p
      simp only [lookupA] at h
      by_cases hp : p1 = k
      · subst hp
        rw [if_pos (by simp)] at h
        obtain rfl : p2 = v := by simpa using h
        exact List.mem_cons_self _ _
      · rw [if_neg (by simpa using hp)] at h
        exact List.mem_cons_of_mem _ (ih h)

theorem lookupA_dictUpdate (base upd : Assoc) (k : String)
    (hnd : (upd.map Prod.fst).Nodup) :
    lookupA (dictUpdate base upd) k =
      match lookupA upd k with
      | some v => some v
      | none => lookupA base k := by
  induction upd generalizing base with
  | nil => rfl
  | cons p rest ih =>
      obtain ⟨p1, p2⟩ := p
      simp only [List.map_cons, List.nodup_cons] at hnd
      have step : dictUpdate base ((p1, p2) :: rest) =
          dictUpdate (dictInsert base p1 p2) rest := rfl
      rw [step, ih _ hnd.2]
      by_cases hk : p1 = k
      · subst hk
        have hr : lookupA rest p1 = none :=
          lookupA_eq_none_of_not_mem _ _ (by simpa using hnd.1)
        rw [hr, lookupA_dictInsert_self]
        simp [lookupA]
      · rw [lookupA_dictInsert_ne _ _ _ _ (fun hh => hk hh.symm)]
        simp only [lookupA]
        rw [if_neg (by simpa using hk)]

/-! Lemmas about the string model of `startswith` and slicing. -/

theorem strStarts_append_self (name : String) :
    strStarts ("deploy:" ++ name) "deploy:" = true := by
  simp only [strStarts, String.data_append]
  have h7 : ("deploy:" : String).data.length = 7 := rfl
  rw [h7]
  rw [show (7 : Nat) = ("deploy:" : String).data.length from rfl, List.take_left]
  simp

theorem strDrop_append_self (name : String) :
    strDrop ("deploy:" ++ name) 7 = name := by
  simp only [strDrop, String.data_append]
  rw [show (7 : Nat) = ("deploy:" : String).data.length from rfl, List.drop_left]

theorem eq_deploy_append_of_strStarts (s : String)
    (h : strStarts s "deploy:" = true) : s = "deploy:" ++ strDrop s 7 := by
  have hd : s.data.take 7 = ("deploy:" : String).data := by
    simp only [strStarts] at h
    exact eq_of_beq h
  apply String.ext
  rw [String.data_append]
  simp only [strDrop]
  have h2 : s.data = List.take 7 s.data ++ List.drop 7 s.data :=
    (List.take_append_drop 7 s.data).symm
  rw [hd] at h2
  exact h2

/-! Lemmas about the `_get_targets` accumulation. -/

theorem lookupA_foldl_add_of_no_match (baset : Assoc) (name : String)
    (ss : List (String × Assoc)) (acc : List (String × Assoc))
    (h : ∀ s ∈ ss, s.1 ≠ "deploy:" ++ name) :
    lookupA (ss.foldl (addDeploySection baset) acc) name = lookupA acc name := by
  induction ss generalizing acc with
  | nil => rfl
  | cons s rest ih =>
      simp only [List.foldl_cons]
      rw [ih _ (fun s' hs' => h s' (List.mem_cons_of_mem _ hs'))]
      simp only [addDeploySection]
      by_cases hs : strStarts s.1 "deploy:" = true
      · rw [if_pos hs]
        have hne : strDrop s.1 7 ≠ name := by
          intro hdrop
          exact h s (List.mem_cons_self _ _)
            (by rw [eq_deploy_append_of_strStarts s.1 hs, hdrop])
        rw [lookupA_dictInsert_ne _ _ _ _ (fun hh => hne hh.symm)]
      · rw [if_neg hs]

theorem isSome_lookupA_foldl_add (baset : Assoc) (name : String)
    (ss : List (String × Assoc)) (acc : List (String × Assoc))
    (h : (lookupA acc name).isSome = true) :
    (lookupA (ss.foldl (addDeploySection baset) acc) name).isSome = true := by
  induction ss generalizing acc with
  | nil => exact h
  | cons s rest ih =>
      simp only [List.foldl_cons]
      apply ih
      simp only [addDeploySection]
      by_cases hs : strStarts s.1 "deploy:" = true
      · rw [if_pos hs]
        by_cases hn : strDrop s.1 7 = name
        · rw [hn, lookupA_dictInsert_self]
          rfl
        · rw [lookupA_dictInsert_ne _ _ _ _ (fun hh => hn hh.symm)]
          exact h
      · rw [if_neg hs]
        exact h

theorem isSome_lookupA_foldl_add_of_mem (baset : Assoc) (name : String)
    (its : Assoc) (ss : List (String × Assoc)) (acc : List (String × Assoc))
    (h : ("deploy:" ++ name, its) ∈ ss) :
    (lookupA (ss.foldl (addDeploySection baset) acc) name).isSome = true := by
  induction ss generalizing acc with
  | nil => cases h
  | cons s rest ih =>
      simp only [List.foldl_cons]
      rcases List.mem_cons.mp h with hhead | htail
      · subst hhead
        apply isSome_lookupA_foldl_add
        simp only [addDeploySection]
        rw [if_pos (strStarts_append_self name), strDrop_append_self,
            lookupA_dictInsert_self]
        rfl
      · exact ih _ htail

theorem lookupA_foldl_add_of_mem_nodup (baset : Assoc) (name : String)
    (its : Assoc) (ss : List (String × Assoc)) (acc : List (String × Assoc))
    (hmem : ("deploy:" ++ name, its) ∈ ss)
    (hnd : (ss.map Prod.fst).Nodup) :
    lookupA (ss.foldl (addDeploySection baset) acc) name =
      some (dictUpdate baset its) := by
  induction ss generalizing acc with
  | nil => cases hmem
  | cons s rest ih =>
      simp only [List.map_cons, List.nodup_cons] at hnd
      simp only [List.foldl_cons]
      rcases List.mem_cons.mp hmem with hhead | htail
      · subst hhead
        have hnorest : ∀ s' ∈ rest, s'.1 ≠ "deploy:" ++ name := by
          intro s' hs' heq
          have hmm : s'.1 ∈ List.map Prod.fst rest :=
            List.mem_map_of_mem Prod.fst hs'
          rw [heq] at hmm
          exact hnd.1 hmm
        rw [lookupA_foldl_add_of_no_match _ _ _ _ hnorest]
        simp only [addDeploySection]
        rw [if_pos (strStarts_append_self name), strDrop_append_self,
            lookupA_dictInsert_self]
      · exact ih _ htail hnd.2

/-! Claim theorems. -/

/-- C4: for every configuration containing a section `deploy` and a
section `deploy:<name>`, the resolved target for `<name>` maps each key
to the value from `deploy:<name>` when that section sets the key, and
otherwise to the value from `deploy`; keys set in neither section are
absent.  (`ConfigParser` guarantees unique section names and unique
keys per section, stated as `Nodup` hypotheses.) -/
theorem c4_named_target_layering (cfg : Config) (name : String) (its : Assoc)
    (hndS : (cfg.sections.map Prod.fst).Nodup)
    (hndK : (its.map Prod.fst).Nodup)
    (hmem : ("deploy:" ++ name, its) ∈ cfg.sections)
    (hd : cfg.has_section "deploy" = true) :
    ∃ t, lookupA (getTargets cfg) name = some t ∧
      ∀ k, lookupA t k =
        match lookupA its k with
        | some v => some v
        | none => lookupA (cfg.items "deploy") k := by
  refine ⟨dictUpdate (baseTarget cfg) its, ?_, ?_⟩
  · simp only [getTargets]
    exact lookupA_foldl_add_of_mem_nodup _ _ _ _ _ hmem hndS
  · intro k
    rw [lookupA_dictUpdate _ _ _ hndK]
    have hb : baseTarget cfg = cfg.items "deploy" := by
      simp only [baseTarget]
      rw [if_pos hd]
    rw [hb]

/-- Witness for C4 on the concrete `cfgStaging` configuration. -/
theorem c4_witness :
    ∃ t, lookupA (getTargets cfgStaging) "staging" = some t ∧
      ∀ k, lookupA t k =
        match lookupA [("url", "http://staging:6800/"), ("version", "GIT")] k with
        | some v => some v
        | none => lookupA (cfgStaging.items "deploy") k :=
  c4_named_target_layering cfgStaging "staging"
    [("url", "http://staging:6800/"), ("version", "GIT")]
    (by decide) (by decide) (by decide) (by decide)

/-- C5: requesting a target name that is not among the resolved targets
logs `Unknown target: <name>` and terminates the process with exit
code 1 (the `_fail` path of `_get_target`). -/
theorem c5_unknown_target (cfg : Config) (opts : Opts) (env : Env)
    (hin : env.insideProject = true)
    (hlt : opts.list_targets = false)
    (hlp : pyTruthy opts.list_projects = false)
    (hbe : pyTruthy opts.build_egg = false)
    (hall : opts.deploy_all_targets = false)
    (hmiss : lookupA (getTargets cfg) opts.target = none) :
    mainRun cfg opts env =
      ([Effect.logLine ("Unknown target: " ++ opts.target)], Outcome.exited 1) := by
  simp only [mainRun, getTarget, hin, hlt, hlp, hbe, hall, hmiss, excOutcome]
  simp

/-- Witness for C5: the target `missing` is not defined by `cfgEx`. -/
theorem c5_witness :
    mainRun cfgEx optsC5w envOk =
      ([Effect.logLine "Unknown target: missing"], Outcome.exited 1) :=
  c5_unknown_target cfgEx optsC5w envOk rfl rfl rfl rfl rfl (by decide)

/-- C6: an explicit `--version 1.0` resolves to `"1.0"` for every target
(regardless of its `version` policy); with no explicit version and no
target `version` key, the resolved version is the current Unix
timestamp rendered in decimal. -/
theorem c6_version_explicit_and_timestamp (target : Assoc) (opts : Opts)
    (env : Env) :
    (opts.version = some "1.0" → getVersion target opts env = "1.0") ∧
    (opts.version = none → lookupA target "version" = none →
      getVersion target opts env = toString env.timeNow) := by
  constructor
  · intro h
    have ht : pyTruthy (some "1.0") = true := rfl
    have e1 : ((some "1.0" : Option String) == some "HG") = false := rfl
    have e2 : ((some "1.0" : Option String) == some "GIT") = false := rfl
    simp [getVersion, h, ht, e1, e2]
  · intro h1 h2
    have hf : pyTruthy (none : Option String) = false := rfl
    have e1 : ((none : Option String) == some "HG") = false := rfl
    have e2 : ((none : Option String) == some "GIT") = false := rfl
    simp [getVersion, h1, h2, hf, e1, e2]

/-- Witness for C6 at concrete inputs: explicit `1.0` wins over the
target's `GIT` policy, and the no-version/no-policy case renders
`envOk.timeNow = 1700000000` in decimal. -/
theorem c6_witness :
    getVersion [("version", "GIT")] optsC1 envOk = "1.0" ∧
    getVersion [("project", "p")] optsBuildOnly envOk = "1700000000" :=
  ⟨(c6_version_explicit_and_timestamp [("version", "GIT")] optsC1 envOk).1 rfl,
   ((c6_version_explicit_and_timestamp [("project", "p")] optsBuildOnly
      envOk).2 rfl rfl).trans (by decide)⟩

/-- C7: when the resolved version policy is `"GIT"`, the version is
`<descriptor>-<branch>` where the descriptor is the (newline-stripped)
output of `git describe`, or `r` plus the `git rev-list --count HEAD`
output when `git describe` exits non-zero, and the branch is the output
of `git rev-parse --abbrev-ref HEAD`. -/
theorem c7_git_version_policy (target : Assoc) (opts : Opts) (env : Env)
    (hpol : (if pyTruthy opts.version then opts.version
             else lookupA target "version") = some "GIT") :
    getVersion target opts env =
      (if env.gitDescribeCode != 0 then "r" ++ stripNL env.gitRevListCountOut
       else stripNL env.gitDescribeOut) ++ "-" ++ stripNL env.gitBranchOut := by
  have e1 : ((some "GIT" : Option String) == some "HG") = false := rfl
  have e2 : ((some "GIT" : Option String) == some "GIT") = true := rfl
  simp only [getVersion]
  rw [hpol]
  simp [e1, e2]

/-- Witness for C7: target policy `GIT`, successful `git describe`. -/
theorem c7_witness :
    getVersion [("version", "GIT")] optsBuildOnly envGit = "v1.2.3-4-gabc-main" :=
  (c7_git_version_policy [("version", "GIT")] optsBuildOnly envGit
    (by decide)).trans (by decide)

/-- C10: the `default` target is present exactly when the base `deploy`
section carries a `url` (assuming no section is literally named
`deploy:default`, which would install a `default` target of its own);
every `deploy:<name>` section yields target `<name>`; and `_url` on a
target without a `url` key logs `Error: Missing url for project` and
exits with code 1. -/
theorem c10_default_target_and_missing_url (cfg : Config) (name act : String)
    (t : Assoc)
    (hnodef : ∀ p ∈ cfg.sections, p.1 ≠ "deploy:default")
    (hsec : cfg.has_section ("deploy:" ++ name) = true)
    (hurl : lookupA t "url" = none) :
    (lookupA (getTargets cfg) "default").isSome = hasKey (baseTarget cfg) "url" ∧
    (lookupA (getTargets cfg) name).isSome = true ∧
    targetUrl t act =
      ([Effect.logLine "Error: Missing url for project"],
       Except.error (PyExc.sysExit 1)) := by
  refine ⟨?_, ?_, ?_⟩
  · cases hk : hasKey (baseTarget cfg) "url" with
    | true =>
        simp only [getTargets, hk, if_true]
        apply isSome_lookupA_foldl_add
        rw [lookupA_dictInsert_self]
        rfl
    | false =>
        simp only [getTargets, hk, if_false]
        have happ : ("deploy:" ++ "default" : String) = "deploy:default" := rfl
        have h' : ∀ s ∈ cfg.sections, s.1 ≠ "deploy:" ++ "default" := by
          intro s hs
          rw [happ]
          exact hnodef s hs
        rw [lookupA_foldl_add_of_no_match _ _ _ _ h']
        rfl
  · simp only [Config.has_section] at hsec
    obtain ⟨its, hits⟩ := Option.isSome_iff_exists.mp hsec
    have hmem := mem_of_lookupA_eq_some _ _ _ hits
    simp only [getTargets]
    exact isSome_lookupA_foldl_add_of_mem _ _ its _ _ hmem
  · simp only [targetUrl, hurl]

/-- Witness for C10 on `cfgNoUrl`: no `default` target, the `nourl`
target exists, and resolving its URL fails. -/
theorem c10_witness :
    (lookupA (getTargets cfgNoUrl) "default").isSome =
      hasKey (baseTarget cfgNoUrl) "url" ∧
    (lookupA (getTargets cfgNoUrl) "nourl").isSome = true ∧
    targetUrl [("project", "other")] "addversion.json" =
      ([Effect.logLine "Error: Missing url for project"],
       Except.error (PyExc.sysExit 1)) :=
  c10_default_target_and_missing_url cfgNoUrl "nourl" "addversion.json"
    [("project", "other")] (by decide) (by decide) (by decide)

/-- Helper: `_build_egg` only ever creates the temp directory, logs,
and runs the packaging subprocess — its trace holds no network call and
no directory removal. -/
theorem buildEgg_effects_tagless (opts : Opts) (env : Env) :
    ((buildEgg opts env).1.all fun e => !e.isNetwork) = true ∧
    ((buildEgg opts env).1.all fun e => !e.isRmtree) = true := by
  cases hid : opts.include_dependencies <;>
    cases hreq : env.requirementsExists <;>
      cases hok : env.buildOk <;>
        simp [buildEgg, hid, hreq, hok, Effect.isNetwork, Effect.isRmtree]

/-- C9: an execution that takes the `--build-egg` branch issues no
network request: its whole effect trace is free of HTTP calls. -/
theorem c9_build_only_no_network (cfg : Config) (opts : Opts) (env : Env)
    (hin : env.insideProject = true)
    (hlt : opts.list_targets = false)
    (hlp : pyTruthy opts.list_projects = false)
    (hbe : pyTruthy opts.build_egg = true) :
    ((mainRun cfg opts env).1.all fun e => !e.isNetwork) = true := by
  have hb := (buildEgg_effects_tagless opts env).1
  rcases hbuild : buildEgg opts env with ⟨e, r⟩
  rw [hbuild] at hb
  cases r with
  | error ex =>
      simp only at hb
      simp [mainRun, hin, hlt, hlp, hbe, hbuild, hb]
  | ok pr =>
      rcases pr with ⟨eggpath, tmpdir⟩
      simp only at hb
      have hb' : ∀ x ∈ e, x.isNetwork = false := by
        intro x hx
        simpa using List.all_eq_true.mp hb x hx
      simp [mainRun, hin, hlt, hlp, hbe, hbuild, List.all_append,
            Effect.isNetwork]
      exact fun x hx => hb' x hx

/-- Witness for C9: a concrete build-only run touches no network. -/
theorem c9_witness :
    ((mainRun cfgEx optsBuildOnly envOk).1.all fun e => !e.isNetwork) = true :=
  c9_build_only_no_network cfgEx optsBuildOnly envOk rfl rfl rfl rfl

/-- C8 counterexample: a build-only run (`--build-egg out.egg`) without
`--debug` creates the temporary build directory, exits normally with
code 0, and never removes the directory — refuting the claim that every
egg-building mode deletes it before exiting. -/
theorem c8_counterexample :
    optsBuildOnly.debug = false ∧
    Effect.mkdtemp "/tmp/scrapydeploy-abc" ∈ (mainRun cfgEx optsBuildOnly envOk).1 ∧
    Effect.rmtree "/tmp/scrapydeploy-abc" ∉ (mainRun cfgEx optsBuildOnly envOk).1 ∧
    (mainRun cfgEx optsBuildOnly envOk).2 = Outcome.exited 0 := by decide

/-- C8 amended: `_remove_tmpdir` deletes a non-empty temporary directory
when the debug flag is unset and retains it (logging its path) when the
flag is set; but the build-only branch of `main` never invokes it — its
trace contains no `rmtree` at all. -/
theorem c8_amended_cleanup (d : String) (opts : Opts) (cfg : Config) (env : Env)
    (hne : d.isEmpty = false)
    (hin : env.insideProject = true)
    (hlt : opts.list_targets = false)
    (hlp : pyTruthy opts.list_projects = false)
    (hbe : pyTruthy opts.build_egg = true) :
    (opts.debug = false → removeTmpdir (some d) opts = [Effect.rmtree d]) ∧
    (opts.debug = true → removeTmpdir (some d) opts =
      [Effect.logLine ("Output dir not removed: " ++ d)]) ∧
    ((mainRun cfg opts env).1.all fun e => !e.isRmtree) = true := by
  refine ⟨?_, ?_, ?_⟩
  · intro hdbg
    simp [removeTmpdir, hne, hdbg]
  · intro hdbg
    simp [removeTmpdir, hne, hdbg]
  · have hb := (buildEgg_effects_tagless opts env).2
    rcases hbuild : buildEgg opts env with ⟨e, r⟩
    rw [hbuild] at hb
    cases r with
    | error ex =>
        simp only at hb
        simp [mainRun, hin, hlt, hlp, hbe, hbuild, hb]
    | ok pr =>
        rcases pr with ⟨eggpath, tmpdir⟩
        simp only at hb
        have hb' : ∀ x ∈ e, x.isRmtree = false := by
          intro x hx
          simpa using List.all_eq_true.mp hb x hx
        simp [mainRun, hin, hlt, hlp, hbe, hbuild, List.all_append,
              Effect.isRmtree]
        exact fun x hx => hb' x hx

/-- Witness for C8 (amended): `_remove_tmpdir` without debug removes the
directory, and the concrete build-only run performs no removal. -/
theorem c8_witness :
    removeTmpdir (some "/tmp/scrapydeploy-abc") optsBuildOnly =
      [Effect.rmtree "/tmp/scrapydeploy-abc"] ∧
    ((mainRun cfgEx optsBuildOnly envOk).1.all fun e => !e.isRmtree) = true :=
  ⟨(c8_amended_cleanup "/tmp/scrapydeploy-abc" optsBuildOnly cfgEx envOk
      rfl rfl rfl rfl rfl).1 rfl,
   (c8_amended_cleanup "/tmp/scrapydeploy-abc" optsBuildOnly cfgEx envOk
      rfl rfl rfl rfl rfl).2.2⟩

/-- C1 (code bug): a single-target deploy whose egg is given via
`--egg` and whose server would answer 200 `ok` crashes with
`NameError: name 'egg' is not defined` — line 145 of deploy.py passes
the undefined name `egg` (instead of `eggpath`) to `_upload_egg` — so
the response body is never printed and the OS exit status is 1, not 0. -/
theorem c1_ok_response_never_printed :
    mainRun cfgEx optsC1 envOk =
      ([Effect.logLine "Using egg: dist/my.egg"],
       Outcome.crashed (PyExc.nameError "egg")) ∧
    Effect.printLine "\x7b\"status\": \"ok\"\x7d" ∉ (mainRun cfgEx optsC1 envOk).1 ∧
    osExitCode (mainRun cfgEx optsC1 envOk).2 = 1 := by decide

/-- C2 (code bug): the run that the claim counts as a success (egg
built, server answers 200 `ok`) does not exit with code 0 — the
`NameError` at deploy.py line 145 aborts it with OS status 1. -/
theorem c2_success_exit_code_not_zero :
    osExitCode (mainRun cfgEx optsC2 envOk).2 = 1 ∧
    (mainRun cfgEx optsC2 envOk).2 ≠ Outcome.exited 0 ∧
    (mainRun cfgEx optsC2 envOk).2 =
      Outcome.crashed (PyExc.nameError "egg") := by decide

/-- C3 (code bug): `_http_post` itself does treat a 400 JSON
`status`/`message` body as claimed (prints `Status: error` and
`Message:` followed by the message; a non-JSON body is printed raw),
but a single-target deploy run never reaches it: the `NameError` at
deploy.py line 145 aborts the run before any request, so `Status:
error` is never printed. -/
theorem c3_error_response_reporting :
    httpPost "http://localhost:6800/addversion.json" envErr.serverResponse =
      ([Effect.httpPost "http://localhost:6800/addversion.json",
        Effect.logLine "Deploy failed (400):",
        Effect.printLine "Status: error",
        Effect.printLine "Message:\nX"], none) ∧
    httpPost "u" (HttpResponse.httpError 400 ⟨"not json", none⟩) =
      ([Effect.httpPost "u", Effect.logLine "Deploy failed (400):",
        Effect.printLine "not json"], none) ∧
    (mainRun cfgStaging optsC3 envErr).2 =
      Outcome.crashed (PyExc.nameError "egg") ∧
    Effect.printLine "Status: error" ∉ (mainRun cfgStaging optsC3 envErr).1 := by
  decide

end ScrapydDeploy
